import Mathlib

/-!
Verification of the locksmith file-locking library (src/lib/lockfile.js and
src/lib/mtime-precision.js) against its natural-language specification.

The JavaScript source is shallowly embedded: every filesystem interaction is
represented by an explicit result value (raw OS error codes, before the
wrapFs mapping layer), timestamps are integers of milliseconds, and the
callback-driven control flow of each function is translated branch for
branch into a total Lean function.  Where the source consults the
environment repeatedly (retries, recursive re-acquisition) the model
consumes a list of environment responses positionally.
-/

namespace Locksmith

/-- Error codes used by the library: the standard OS codes it inspects, the
codes it produces itself, and a catch-all for custom or unexpected codes. -/
inductive ErrCode
  | ELOCKED
  | ENOENT
  | EEXIST
  | EISDIR
  | ECORRUPT
  | ECOMPROMISED
  | ENOTACQUIRED
  | other (code : String)
  deriving DecidableEq, Repr

/-- An error as it travels through the callbacks: its code plus the
internal marker flag set by verifyStalenessWithRetry. -/
structure LockErr where
  code : ErrCode
  fromStalenessRetry : Bool
  deriving DecidableEq, Repr

/-- mapLockfileError from the source: EISDIR and EEXIST become ELOCKED,
ENOENT is kept (with a changed message), everything else passes through.
The wrapFs utility applies this to every error produced by the wrapped
mkdir, stat, readFile, utimes, rmdir and unlink operations. -/
def mapLockfileError : ErrCode → ErrCode
  | .EISDIR => .ELOCKED
  | .EEXIST => .ELOCKED
  | .ENOENT => .ENOENT
  | c => c

/-- Filesystem mtime precision as probed by mtime-precision.js. -/
inductive Precision
  | s
  | ms
  deriving DecidableEq, Repr

/-- Result of a stat call: the marker mtime in ms, or a raw error code. -/
inductive StatRes
  | stat (mtime : Int)
  | errCode (c : ErrCode)
  deriving DecidableEq, Repr

/-- A stat result as observed through wrapFs (error codes remapped). -/
def mapStatRes : StatRes → StatRes
  | .stat m => .stat m
  | .errCode c => .errCode (mapLockfileError c)

/-- isLockStale from the source: stat.mtime.getTime() < Date.now() - options.stale. -/
def isLockStale (mtime now stale : Int) : Bool :=
  mtime < now - stale

/-! ## Directory-marker mutual exclusion (the mkdir primitive) -/

/-- State of one marker path: whether the lock directory exists, and which
processes currently hold the lock through it. -/
structure DirMarkerState where
  dirExists : Bool
  holders : List Nat
  deriving DecidableEq, Repr

/-- An atomic action on the marker: a claim (mkdir) or a release (rmdir)
by process p. -/
inductive LockEvent
  | claim (p : Nat)
  | release (p : Nat)
  deriving DecidableEq, Repr

/-- One atomic step.  A claim is the atomic directory creation: it succeeds
(returns some true) exactly when the directory does not exist, failing with
EEXIST (returns some false) otherwise.  A release by a holder removes the
directory. -/
def stepEvent (s : DirMarkerState) (e : LockEvent) : DirMarkerState × Option Bool :=
  match e with
  | .claim p =>
      if s.dirExists then (s, some false)
      else ({ dirExists := true, holders := s.holders ++ [p] }, some true)
  | .release p =>
      if p ∈ s.holders then
        ({ dirExists := false, holders := s.holders.erase p }, none)
      else (s, none)

/-- Run a sequence of interleaved atomic events. -/
def runEvents (s : DirMarkerState) (es : List LockEvent) : DirMarkerState :=
  es.foldl (fun t e => (stepEvent t e).1) s

/-- Initial state: no marker on disk, no holders. -/
def initMarker : DirMarkerState := { dirExists := false, holders := [] }

/-- The mutual-exclusion invariant: at most one holder, and a holder exists
only while the directory exists. -/
def DirInv (s : DirMarkerState) : Prop :=
  s.holders.length ≤ 1 ∧ (s.dirExists = false → s.holders = [])

/-! ## The asynchronous directory-marker acquire path (acquireLock) -/

/-- Environment responses consumed by one acquireLock invocation: the raw
mkdir outcome (none is success), the mtime-precision probe outcome on the
success path, the raw stat outcome on the conflict path, the raw stat
outcomes consumed by verifyStalenessWithRetry, and the raw rmdir outcome of
removeLock on the reclaim path. -/
structure AttemptEnv where
  mkdirRes : Option ErrCode
  probeRes : Except ErrCode (Int × Precision)
  statRes : StatRes
  verifyStats : List StatRes
  rmdirRes : Option ErrCode
  deriving Repr

/-- Outcome of acquireLock: the marker mtime and probed precision, or an error. -/
inductive AcqResult
  | acquired (mtime : Int) (precision : Precision)
  | failed (e : LockErr)
  deriving DecidableEq, Repr

/-- The callback wrapper declared at the top of acquireLock: remaps EISDIR
to ELOCKED, ENOENT carrying the staleness-retry flag to ELOCKED, and EEXIST
to ELOCKED, before delivering to the user callback. -/
def acquireCallbackMap (e : LockErr) : LockErr :=
  let e1 := if e.code = .EISDIR then { code := ErrCode.ELOCKED, fromStalenessRetry := false } else e
  let e2 := if e1.code = .ENOENT ∧ e1.fromStalenessRetry = true then
              { code := ErrCode.ELOCKED, fromStalenessRetry := false } else e1
  if e2.code = .EEXIST then { code := ErrCode.ELOCKED, fromStalenessRetry := false } else e2

/-- verifyStalenessWithRetry from the source, with wrapFs mapping applied to
each stat.  The first argument is the number of loop iterations left
(maxTries is 2 at the call site).  Returns none when some stat succeeded or
the loop ran out (no throw), and the thrown error otherwise: after the last
try an ENOENT becomes ELOCKED with the staleness-retry flag. -/
def verifyStaleness : Nat → List StatRes → Option LockErr
  | 0, _ => none
  | _ + 1, [] => none
  | rem + 1, r :: rest =>
      match mapStatRes r with
      | .stat _ => none
      | .errCode c =>
          if rem = 0 then
            if c = .ENOENT then some { code := .ELOCKED, fromStalenessRetry := true }
            else some { code := c, fromStalenessRetry := false }
          else verifyStaleness rem rest

/-- acquireLock from the source (directory-marker path), one AttemptEnv per
invocation; the recursive re-acquisitions (always at stale = 0) consume the
rest of the list.  The wrapFs remapping is applied to each raw filesystem
error before the source inspects its code, exactly as in the source, so the
branches that test for a raw EEXIST after the remap are kept but are
unreachable. -/
def acquireLockDir : List AttemptEnv → Int → Int → AcqResult
  | [], _, _ => .failed { code := .other "UNMODELLED", fromStalenessRetry := false }
  | env :: rest, stale, now =>
      match env.mkdirRes with
      | none =>
          match env.probeRes with
          | .ok (m, p) => .acquired m p
          | .error c =>
              .failed (acquireCallbackMap { code := mapLockfileError c, fromStalenessRetry := false })
      | some rawErr =>
          let c := mapLockfileError rawErr
          if c = .EISDIR then
            .failed (acquireCallbackMap { code := .ELOCKED, fromStalenessRetry := false })
          else if c ≠ .EEXIST then
            if ¬ (c = .ENOENT ∨ c = .EEXIST ∨ c = .EISDIR) then
              .failed (acquireCallbackMap { code := c, fromStalenessRetry := false })
            else
              .failed (acquireCallbackMap { code := .ELOCKED, fromStalenessRetry := false })
          else if stale ≤ 0 then
            .failed (acquireCallbackMap { code := .ELOCKED, fromStalenessRetry := false })
          else
            match mapStatRes env.statRes with
            | .errCode sc =>
                if sc = .EISDIR then
                  .failed (acquireCallbackMap { code := .ELOCKED, fromStalenessRetry := false })
                else if sc = .ENOENT then
                  match verifyStaleness 2 env.verifyStats with
                  | some e =>
                      if e.code = .ENOENT then
                        .failed (acquireCallbackMap { code := .ELOCKED, fromStalenessRetry := true })
                      else .failed (acquireCallbackMap e)
                  | none => acquireLockDir rest 0 now
                else if ¬ (sc = .ENOENT ∨ sc = .EEXIST ∨ sc = .EISDIR) then
                  .failed (acquireCallbackMap { code := sc, fromStalenessRetry := false })
                else
                  .failed { code := .other "UNREACHABLE", fromStalenessRetry := false }
            | .stat m =>
                if ¬ isLockStale m now stale then
                  .failed (acquireCallbackMap { code := .ELOCKED, fromStalenessRetry := false })
                else
                  match env.rmdirRes with
                  | none => acquireLockDir rest 0 now
                  | some rraw =>
                      let rc := mapLockfileError rraw
                      if rc = .ENOENT then acquireLockDir rest 0 now
                      else if rc = .EISDIR then
                        .failed (acquireCallbackMap { code := .ELOCKED, fromStalenessRetry := false })
                      else if ¬ (rc = .ENOENT ∨ rc = .EEXIST ∨ rc = .EISDIR) then
                        .failed (acquireCallbackMap { code := rc, fromStalenessRetry := false })
                      else acquireLockDir rest 0 now

/-! ## check (checkCore) -/

/-- A one-marker filesystem used to express that check is a pure read. -/
structure SimpleFs where
  markerMtime : Option Int
  deriving DecidableEq, Repr

/-- The stat observation of the marker on a SimpleFs. -/
def statMarker (fs : SimpleFs) : StatRes :=
  match fs.markerMtime with
  | none => .errCode .ENOENT
  | some m => .stat m

/-- checkCore from the source, given the raw stat outcome of the marker:
the stale option is clamped to at least 2000 ms, a missing marker means not
locked, any other stat error propagates, and an existing marker counts as
locked exactly when it is not stale. -/
def checkCore (stale now : Int) (statRaw : StatRes) : Except ErrCode Bool :=
  let staleN := max stale 2000
  match mapStatRes statRaw with
  | .errCode c => if c = .ENOENT then .ok false else .error c
  | .stat m => .ok (! isLockStale m now staleN)

/-- checkCore run against a SimpleFs: its only filesystem interaction is
the stat observation, so the filesystem is returned unchanged. -/
def checkCoreFs (stale now : Int) (fs : SimpleFs) : Except ErrCode Bool × SimpleFs :=
  (checkCore stale now (statMarker fs), fs)

/-! ## Record-marker (JSON) locks (acquireJsonLock) -/

/-- The JSON lock record: readers, writer, created and updated timestamps. -/
structure LockRecord where
  readers : List String
  writer : Option String
  created : Int
  updated : Int
  deriving DecidableEq, Repr

/-- JavaScript truthiness of the writer field (null and the empty string
are falsy). -/
def writerTruthy : Option String → Bool
  | none => false
  | some s => ! s.isEmpty

/-- The fresh record created when no lockfile exists. -/
def emptyRecord (now : Int) : LockRecord :=
  { readers := [], writer := none, created := now, updated := now }

/-- Resolving the readFile outcome: an ENOENT (none) yields a fresh record. -/
def recordFromRead (readRes : Option LockRecord) (now : Int) : LockRecord :=
  readRes.getD (emptyRecord now)

/-- The two record-lock modes. -/
inductive JsonMode
  | shared
  | exclusive
  deriving DecidableEq, Repr

/-- The tail of a successful conflict decision in acquireJsonLock: set
updated to now, prune the readers with the same-host liveness filter
(keep r models: r does not parse as a pid entry, or is on another host, or
its pid is alive), then write the record (writeFile is not wrapped by
wrapFs, so a write error propagates raw). -/
def acquireJsonFinish (keep : String → Bool) (now : Int) (writeErr : Option ErrCode)
    (rec1 : LockRecord) : Except LockErr LockRecord :=
  let rec2 := { rec1 with updated := now }
  let rec3 := { rec2 with readers := rec2.readers.filter keep }
  match writeErr with
  | some c => .error { code := c, fromStalenessRetry := false }
  | none => .ok rec3

/-- The conflict decision of acquireJsonLock on the record it read: shared
mode fails with ELOCKED when a writer is present, otherwise adds the caller
id to the readers (if absent); exclusive mode fails with ELOCKED when a
writer or any reader is present, otherwise sets the writer.  Only then are
dead same-host readers pruned and the record written. -/
def acquireJsonDecide (mode : JsonMode) (id : String) (keep : String → Bool) (now : Int)
    (rec0 : LockRecord) (writeErr : Option ErrCode) : Except LockErr LockRecord :=
  match mode with
  | .shared =>
      if writerTruthy rec0.writer then .error { code := .ELOCKED, fromStalenessRetry := false }
      else
        acquireJsonFinish keep now writeErr
          { rec0 with readers := if rec0.readers.contains id then rec0.readers
                                 else rec0.readers ++ [id] }
  | .exclusive =>
      if writerTruthy rec0.writer || decide (0 < rec0.readers.length) then
        .error { code := .ELOCKED, fromStalenessRetry := false }
      else
        acquireJsonFinish keep now writeErr { rec0 with writer := some id }

/-- Outcome of the record-lock release closure. -/
inductive ReleaseResult
  | removed
  | written (rec : LockRecord)
  | skipped
  deriving DecidableEq, Repr

/-- The release closure of acquireJsonLock: a failed read or parse resolves
silently; otherwise the caller is removed from the record (its reader entry
in shared mode, the writer field if it matches in exclusive mode), updated
is refreshed, and the lockfile is deleted when no holder remains, else the
readers are pruned and the record rewritten. -/
def releaseJsonStep (mode : JsonMode) (lockId : String) (keep : String → Bool) (now2 : Int)
    (readRes : Option LockRecord) : ReleaseResult :=
  match readRes with
  | none => .skipped
  | some rec0 =>
      let rec1 :=
        match mode with
        | .shared => { rec0 with readers := rec0.readers.filter (fun r => ! (r == lockId)) }
        | .exclusive => if rec0.writer == some lockId then { rec0 with writer := none } else rec0
      let rec2 := { rec1 with updated := now2 }
      if ! writerTruthy rec2.writer && rec2.readers.isEmpty then .removed
      else .written { rec2 with readers := rec2.readers.filter keep }

/-- The record-marker invariant: at most one writer can be set (the field
is optional), and if a writer is set it is a real (nonempty) id and the
readers set is empty. -/
def RecordInv (rec : LockRecord) : Prop :=
  ∀ w : String, rec.writer = some w → w ≠ "" ∧ rec.readers = []

/-! ## Retry policy (lockCore and the retry npm module) -/

/-- operation.retry(err) of the retry npm module used by lockCore: it
schedules another attempt exactly when an error value is present and
retries remain — the error code is never inspected. -/
def operationRetry (retriesLeft : Nat) (err : Option LockErr) : Bool :=
  err.isSome && decide (0 < retriesLeft)

/-- The retry loop of lockCore over the successive attempt outcomes (none
is a successful acquisition).  Returns the final outcome and the number of
attempts consumed. -/
def runRetryLoop : Nat → List (Option LockErr) → Option LockErr × Nat
  | _, [] => (some { code := .other "NO_ATTEMPT", fromStalenessRetry := false }, 0)
  | retriesLeft, r :: rest =>
      if operationRetry retriesLeft r then
        ((runRetryLoop (retriesLeft - 1) rest).1, (runRetryLoop (retriesLeft - 1) rest).2 + 1)
      else (r, 1)

/-! ## unlock -/

/-- The raw rmdir outcome on a marker directory: removing an existing
(empty) marker succeeds, removing a missing one fails ENOENT. -/
def rmdirResult (markerPresent : Bool) : Option ErrCode :=
  if markerPresent then none else some .ENOENT

/-- The no-session branch of unlock (tryRmdir), given the raw rmdir error
(none is success): success and ENOENT are success; EEXIST or ELOCKED after
the wrapFs mapping yield ELOCKED; every other error yields ENOTACQUIRED.
The win32 EPERM retry is not modelled (non-Windows platform). -/
def unlockNoSessionOutcome (rawErr : Option ErrCode) : Option ErrCode :=
  match rawErr with
  | none => none
  | some raw =>
      let c := mapLockfileError raw
      if c = .ENOENT then none
      else if c = .EEXIST ∨ c = .ELOCKED then some .ELOCKED
      else some .ENOTACQUIRED

/-- unlock from the source on a SimpleFs-level marker: with a session in
the process-wide locks table the lock is marked released, dropped from the
table and the marker removed; with no session the marker is removed anyway
and the outcome classified by unlockNoSessionOutcome.  Returns the call
outcome (none is success) and whether the marker remains. -/
def unlockRun (inTable markerPresent : Bool) : Option ErrCode × Bool :=
  if inTable then (none, false)
  else
    match rmdirResult markerPresent with
    | none => (none, false)
    | some raw => (unlockNoSessionOutcome (some raw), markerPresent)

/-! ## Release handles -/

/-- The observable state around one asynchronous lock session: the
released flag of the session object, its presence in the process-wide
locks table, the marker on disk, and a count of filesystem operations
performed (to state that a repeated release performs none). -/
structure RelState where
  released : Bool
  inTable : Bool
  markerPresent : Bool
  fsOps : Nat
  deriving DecidableEq, Repr

/-- The release closure returned by lockCore: if the session is already
released it only invokes the callback; otherwise it runs unlock, which
(with the session in the table) clears the timer, sets released, deletes
the table entry and removes the marker. -/
def releaseHandle (s : RelState) : RelState × Option ErrCode :=
  if s.released then (s, none)
  else if s.inTable then
    ({ released := true, inTable := false, markerPresent := false, fsOps := s.fsOps + 1 }, none)
  else
    match rmdirResult s.markerPresent with
    | none => ({ s with markerPresent := false, fsOps := s.fsOps + 1 }, none)
    | some raw => ({ s with fsOps := s.fsOps + 1 }, unlockNoSessionOutcome (some raw))

/-- Outcome of the synchronous release function returned by lockSync. -/
inductive SyncRelOutcome
  | ok
  | threwAlreadyReleased
  | threwCode (c : ErrCode)
  deriving DecidableEq, Repr

/-- The release function returned by lockSync: a second call throws the
error Lock already released; otherwise it removes the marker, turning an
ENOENT into ECOMPROMISED and mapping other errors through mapLockfileError. -/
def lockSyncReleaseStep (releasedTwice : Bool) (rmdirRaw : Option ErrCode) :
    Bool × SyncRelOutcome :=
  if releasedTwice then (releasedTwice, .threwAlreadyReleased)
  else
    match rmdirRaw with
    | none => (true, .ok)
    | some raw =>
        if raw = .ENOENT then (true, .threwCode .ECOMPROMISED)
        else (true, .threwCode (mapLockfileError raw))

/-! ## Heartbeat (updateLock) -/

/-- The per-session heartbeat state read by one tick of updateLock. -/
structure HeldLock where
  mtime : Int
  lastUpdate : Int
  released : Bool
  hasCallback : Bool
  deriving DecidableEq, Repr

/-- Outcome of one heartbeat tick. -/
inductive TickOutcome
  | compromisedCb (c : ErrCode)
  | compromisedThrown (c : ErrCode)
  | retryShortened (newDelay : Int)
  | refreshed (newMtime : Int)
  | ignored
  deriving DecidableEq, Repr

/-- setLockAsCompromised from the source: the error is delivered to the
onCompromised callback when one was supplied, and thrown otherwise. -/
def compromise (hasCb : Bool) (c : ErrCode) : TickOutcome :=
  if hasCb then .compromisedCb c else .compromisedThrown c

/-- getMtime from mtime-precision.js: at second precision the fresh
timestamp is Math.ceil(now / 1000) * 1000 (the next whole second), at
millisecond precision it is now itself. -/
def getMtime (precision : Precision) (now : Int) : Int :=
  match precision with
  | .s => (now + 999) / 1000 * 1000
  | .ms => now

/-- Modelled from the spec: the claim says the fresh timestamp is
truncated to whole seconds when the filesystem precision is seconds; this
is the truncation (floor to the current whole second) the claim describes,
for comparison with getMtime. -/
def truncatedToSecond (now : Int) : Int :=
  now / 1000 * 1000

/-- One tick of updateLock: stat the marker (through wrapFs); on a stat
error, compromise when the marker is gone or the last successful update is
older than the stale threshold, else shorten the retry delay to 1000 ms;
on success, compromise when the observed mtime is not the one this session
last wrote, else compute the fresh timestamp per the probed precision and
write it with utimes, whose failure is classified the same way; a tick
whose session was released meanwhile is ignored.  nowStat, nowFresh and
nowAfter are the successive Date.now() readings. -/
def updateTick (lock : HeldLock) (stale : Int) (precision : Precision)
    (statRes : StatRes) (utimesErr : Option ErrCode)
    (nowStat nowFresh nowAfter : Int) : TickOutcome :=
  match mapStatRes statRes with
  | .errCode c =>
      if c = .ENOENT ∨ lock.lastUpdate + stale < nowStat then
        compromise lock.hasCallback .ECOMPROMISED
      else .retryShortened 1000
  | .stat m =>
      if lock.mtime ≠ m then compromise lock.hasCallback .ECOMPROMISED
      else
        let mt := getMtime precision nowFresh
        match utimesErr with
        | some raw =>
            if lock.released then .ignored
            else if mapLockfileError raw = .ENOENT ∨ lock.lastUpdate + stale < nowAfter then
              compromise lock.hasCallback .ECOMPROMISED
            else .retryShortened 1000
        | none =>
            if lock.released then .ignored
            else .refreshed mt

/-! ## lockCore dispatch (record mode vs directory mode) -/

/-- The in-process effects of one lockCore call observed by the rest of
the process: the files in the process-wide locks table afterwards, whether
a heartbeat (updateLock) was started, and whether a retry operation was
created from the caller policy. -/
structure CoreEffects where
  locksAfter : List String
  heartbeatStarted : Bool
  retryPolicyUsed : Bool
  deriving DecidableEq, Repr

/-- lockCore after path resolution: in shared or exclusive mode it calls
acquireJsonLock directly and returns — no retry operation, no locks-table
entry, no updateLock; in directory mode the attempt runs under the retry
policy and a success registers the session and starts the heartbeat. -/
def lockCoreDispatch (mode : Option JsonMode) (locksBefore : List String) (file : String)
    (dirAttempts : List (Option LockErr)) (retries : Nat) : CoreEffects :=
  match mode with
  | some _ =>
      { locksAfter := locksBefore, heartbeatStarted := false, retryPolicyUsed := false }
  | none =>
      match (runRetryLoop retries dirAttempts).1 with
      | some _ =>
          { locksAfter := locksBefore, heartbeatStarted := false, retryPolicyUsed := true }
      | none =>
          { locksAfter := locksBefore ++ [file], heartbeatStarted := true,
            retryPolicyUsed := true }

/-! ## Helper lemmas -/

theorem stepEvent_preserves_inv (s : DirMarkerState) (e : LockEvent)
    (h : DirInv s) : DirInv (stepEvent s e).1 := by
  obtain ⟨hlen, habs⟩ := h
  cases e with
  | claim p =>
      by_cases hd : s.dirExists = true
      · simp only [stepEvent, hd, if_true]
        exact ⟨hlen, habs⟩
      · have hd0 : s.dirExists = false := by
          revert hd; cases s.dirExists <;> simp
        have h0 : s.holders = [] := habs hd0
        simp [stepEvent, hd0, DirInv, h0]
  | release p =>
      by_cases hp : p ∈ s.holders
      · have h1 : 0 < s.holders.length := List.length_pos_of_mem hp
        have h2 : (s.holders.erase p).length = s.holders.length - 1 :=
          List.length_erase_of_mem hp
        have h3 : s.holders.erase p = [] := by
          apply List.eq_nil_of_length_eq_zero
          omega
        simp [stepEvent, hp, DirInv, h3]
      · simp only [stepEvent, hp, if_false]
        exact ⟨hlen, habs⟩

theorem runEvents_preserves_inv (es : List LockEvent) :
    ∀ s : DirMarkerState, DirInv s → DirInv (runEvents s es) := by
  induction es with
  | nil => intro s h; simpa [runEvents] using h
  | cons e rest ih =>
      intro s h
      have h1 := stepEvent_preserves_inv s e h
      simpa [runEvents, List.foldl_cons] using ih _ h1

theorem writer_none_of_not_truthy {rec : LockRecord} (h : RecordInv rec)
    (hw : writerTruthy rec.writer = false) : rec.writer = none := by
  cases hwr : rec.writer with
  | none => rfl
  | some w =>
      obtain ⟨hne, _⟩ := h w hwr
      rw [hwr] at hw
      simp [writerTruthy, String.isEmpty_iff] at hw
      exact absurd hw hne

/-! ## Claim theorems -/

/-- Claim C1: for a given marker path, at most one exclusive holder exists
at any instant along any interleaving of atomic claim and release events;
a claim against an existing marker fails (mkdir EEXIST, surfaced by
acquireLock as ELOCKED), of two racing claims on the same absent marker
exactly the first mkdir succeeds and the second fails, and a claim after
the holder releases succeeds. -/
theorem dir_marker_mutual_exclusion :
    (∀ es : List LockEvent, (runEvents initMarker es).holders.length ≤ 1) ∧
    (∀ (s : DirMarkerState) (p q : Nat), s.dirExists = false →
      (stepEvent s (.claim p)).2 = some true ∧
      (stepEvent (stepEvent s (.claim p)).1 (.claim q)).2 = some false) ∧
    (∀ (s : DirMarkerState) (p : Nat), s.dirExists = true →
      (stepEvent s (.claim p)).2 = some false) ∧
    (∀ (env : AttemptEnv) (rest : List AttemptEnv) (stale now : Int),
      env.mkdirRes = some .EEXIST →
      acquireLockDir (env :: rest) stale now =
        .failed { code := .ELOCKED, fromStalenessRetry := false }) ∧
    (∀ p q : Nat,
      (stepEvent (stepEvent (stepEvent initMarker (.claim p)).1 (.release p)).1
        (.claim q)).2 = some true) := by
  refine ⟨?_, ?_, ?_, ?_, ?_⟩
  · intro es
    exact (runEvents_preserves_inv es initMarker ⟨by simp [initMarker], fun _ => rfl⟩).1
  · intro s p q h
    refine ⟨by simp [stepEvent, h], by simp [stepEvent, h]⟩
  · intro s p h
    simp [stepEvent, h]
  · intro env rest stale now h
    simp [acquireLockDir, h, mapLockfileError, acquireCallbackMap]
  · intro p q
    simp [stepEvent, initMarker]

theorem dir_marker_mutual_exclusion_witness :
    (stepEvent { dirExists := false, holders := [] } (.claim 1)).2 = some true ∧
    (stepEvent (stepEvent { dirExists := false, holders := [] } (.claim 1)).1
      (.claim 2)).2 = some false ∧
    acquireLockDir
      [{ mkdirRes := some .EEXIST, probeRes := .ok (0, .ms), statRes := .stat 0,
         verifyStats := [], rmdirRes := none }] 10000 0 =
      .failed { code := .ELOCKED, fromStalenessRetry := false } :=
  ⟨(dir_marker_mutual_exclusion.2.1 _ 1 2 rfl).1,
   (dir_marker_mutual_exclusion.2.1 _ 1 2 rfl).2,
   dir_marker_mutual_exclusion.2.2.2.1 _ [] 10000 0 rfl⟩

/-- Claim C2 (code bug): on the failing input the marker is stale by the
source's own staleness policy (mtime 0, now 5000, stale 2000), the stat
would succeed, the removal would succeed and the follow-up mkdir would
succeed — yet the conflicting acquire fails ELOCKED without ever consulting
staleness, because wrapFs rewrites the raw mkdir EEXIST to ELOCKED before
acquireLock tests err.code against EEXIST, leaving the entire
staleness/reclaim branch unreachable. -/
theorem stale_reclaim_failing_input :
    isLockStale 0 5000 2000 = true ∧
    acquireLockDir
      [ { mkdirRes := some .EEXIST, probeRes := .ok (0, .ms), statRes := .stat 0,
          verifyStats := [], rmdirRes := none },
        { mkdirRes := none, probeRes := .ok (5000, .ms), statRes := .stat 5000,
          verifyStats := [], rmdirRes := none } ]
      2000 5000 = .failed { code := .ELOCKED, fromStalenessRetry := false } := by
  constructor
  · decide
  · rfl

/-- Claim C6: checkCore is a pure read — the filesystem is returned
unchanged; a missing marker yields not-locked (false); an existing marker
yields locked (true) exactly when its age now - mtime is at most the
normalized stale threshold, so a marker whose age equals the threshold is
still reported locked. -/
theorem check_pure_read :
    ∀ (stale now : Int) (fs : SimpleFs),
      ((checkCoreFs stale now fs).2 = fs) ∧
      (fs.markerMtime = none → (checkCoreFs stale now fs).1 = .ok false) ∧
      (∀ m, fs.markerMtime = some m →
        ((checkCoreFs stale now fs).1 = .ok true ↔ now - m ≤ max stale 2000)) := by
  intro stale now fs
  refine ⟨rfl, ?_, ?_⟩
  · intro h
    simp [checkCoreFs, checkCore, statMarker, h, mapStatRes, mapLockfileError]
  · intro m h
    have hred : (checkCoreFs stale now fs).1 =
        .ok (! decide (m < now - max stale 2000)) := by
      simp [checkCoreFs, checkCore, statMarker, h, mapStatRes, isLockStale]
    rw [hred]
    constructor
    · intro hok
      have hb : (! decide (m < now - max stale 2000)) = true := by injection hok
      simp at hb
      omega
    · intro hle
      have hnot : ¬ (m < now - max stale 2000) := by omega
      simp [hnot]

theorem check_pure_read_witness :
    (checkCoreFs 2000 4000 { markerMtime := some 2000 }).1 = .ok true ∧
    (checkCoreFs 2000 4000 { markerMtime := none }).1 = .ok false ∧
    (checkCoreFs 2000 4000 { markerMtime := some 2000 }).2 =
      { markerMtime := some 2000 } :=
  ⟨((check_pure_read 2000 4000 { markerMtime := some 2000 }).2.2 2000 rfl).mpr (by decide),
   (check_pure_read 2000 4000 { markerMtime := none }).2.1 rfl,
   (check_pure_read 2000 4000 { markerMtime := some 2000 }).1⟩

/-- Claim C7 (counterexample): an attempt failing with a code that is
neither AlreadyLocked nor NotFound (a raw EACCES) is nevertheless retried
by the policy — with one retry allowed, two attempts are consumed instead
of aborting after the first, because operation.retry of the retry module
never inspects the error code. -/
theorem retry_no_classification_counterexample :
    operationRetry 1 (some { code := .other "EACCES", fromStalenessRetry := false }) = true ∧
    (runRetryLoop 1 [some { code := .other "EACCES", fromStalenessRetry := false },
                     some { code := .other "EACCES", fromStalenessRetry := false }]).2 = 2 := by
  constructor
  · rfl
  · rfl

/-- Claim C7 (amended): a failed attempt is retried exactly when any error
occurred and retries remain — the error code is never consulted; with no
retries left the attempt error is final, and a successful attempt consumes
exactly one attempt. -/
theorem retry_any_error_per_policy :
    ∀ (n : Nat) (e : LockErr) (rest : List (Option LockErr)),
      (0 < n → runRetryLoop n (some e :: rest) =
        ((runRetryLoop (n - 1) rest).1, (runRetryLoop (n - 1) rest).2 + 1)) ∧
      (runRetryLoop 0 (some e :: rest) = (some e, 1)) ∧
      (runRetryLoop n (none :: rest) = (none, 1)) := by
  intro n e rest
  refine ⟨?_, ?_, ?_⟩
  · intro hn
    have hop : operationRetry n (some e) = true := by
      simp [operationRetry, hn]
    simp [runRetryLoop, hop]
  · simp [runRetryLoop, operationRetry]
  · simp [runRetryLoop, operationRetry]

theorem retry_any_error_per_policy_witness :
    runRetryLoop 1 [some { code := .ELOCKED, fromStalenessRetry := false }, none] =
      (none, 2) := by
  have h := (retry_any_error_per_policy 1
    { code := .ELOCKED, fromStalenessRetry := false } [none]).1 (by decide)
  rw [h]
  rfl

/-- Claim C9 (counterexample): unlock called by a process that holds no
session, while the marker of another holder exists, succeeds (and removes
the foreign marker) instead of failing with NotOwned. -/
theorem unlock_no_session_counterexample :
    unlockRun false true = (none, false) := rfl

/-- Claim C9 (amended): unlock with no session attempts the removal
anyway — a successful rmdir or an ENOENT is success (removing a foreign
holder's marker if one exists); only an error mapping to EEXIST or ELOCKED
yields AlreadyLocked and any other error yields ENOTACQUIRED; with a
session in the table the release succeeds and removes the marker. -/
theorem unlock_no_session_spec :
    (∀ mp : Bool, unlockRun true mp = (none, false)) ∧
    (∀ mp : Bool, unlockRun false mp = (none, false)) ∧
    (unlockNoSessionOutcome none = none) ∧
    (unlockNoSessionOutcome (some .ENOENT) = none) ∧
    (unlockNoSessionOutcome (some .EEXIST) = some .ELOCKED) ∧
    (∀ c : ErrCode, mapLockfileError c ≠ .ENOENT → mapLockfileError c ≠ .EEXIST →
      mapLockfileError c ≠ .ELOCKED →
      unlockNoSessionOutcome (some c) = some .ENOTACQUIRED) := by
  refine ⟨?_, ?_, rfl, rfl, rfl, ?_⟩
  · intro mp; rfl
  · intro mp; cases mp <;> rfl
  · intro c h1 h2 h3
    simp [unlockNoSessionOutcome, h1, h2, h3]

theorem unlock_no_session_spec_witness :
    unlockNoSessionOutcome (some (.other "EPERM")) = some .ENOTACQUIRED :=
  unlock_no_session_spec.2.2.2.2.2 (.other "EPERM") (by decide) (by decide) (by decide)

/-- Claim C10: a lockCore call in record mode (shared or exclusive)
dispatches straight to acquireJsonLock — the process-wide locks table is
left unchanged (so the exit guard will not remove the marker of a lock it
never registered), no heartbeat is started, and the caller retry policy is
never consulted. -/
theorem record_mode_frame :
    ∀ (m : JsonMode) (locksBefore : List String) (file : String)
      (dirAttempts : List (Option LockErr)) (retries : Nat),
      lockCoreDispatch (some m) locksBefore file dirAttempts retries =
        { locksAfter := locksBefore, heartbeatStarted := false,
          retryPolicyUsed := false } ∧
      (file ∉ locksBefore →
        file ∉ (lockCoreDispatch (some m) locksBefore file dirAttempts retries).locksAfter) := by
  intro m locksBefore file dirAttempts retries
  refine ⟨rfl, ?_⟩
  intro h
  exact h

/-- Claim C3: acquire and release on a JSON lock record preserve the
invariant that at most one writer is set and a set writer excludes all
readers; a shared acquire fails with ELOCKED exactly on a present writer
and otherwise adds the caller to the readers, and an exclusive acquire
fails with ELOCKED whenever a writer or any reader is present and
otherwise sets the writer. -/
theorem json_record_invariant :
    ∀ (mode : JsonMode) (id : String) (keep : String → Bool) (now : Int)
      (rec0 : LockRecord) (writeErr : Option ErrCode),
      RecordInv rec0 → id ≠ "" →
      ((∀ rec1, acquireJsonDecide mode id keep now rec0 writeErr = .ok rec1 →
          RecordInv rec1) ∧
       (mode = .shared → writerTruthy rec0.writer = true →
          acquireJsonDecide mode id keep now rec0 writeErr =
            .error { code := .ELOCKED, fromStalenessRetry := false }) ∧
       (mode = .shared → writerTruthy rec0.writer = false → writeErr = none →
          keep id = true →
          ∃ rec1, acquireJsonDecide mode id keep now rec0 writeErr = .ok rec1 ∧
            rec1.writer = none ∧ id ∈ rec1.readers) ∧
       (mode = .exclusive →
          (writerTruthy rec0.writer = true ∨ rec0.readers ≠ []) →
          acquireJsonDecide mode id keep now rec0 writeErr =
            .error { code := .ELOCKED, fromStalenessRetry := false }) ∧
       (mode = .exclusive → writerTruthy rec0.writer = false → rec0.readers = [] →
          writeErr = none →
          acquireJsonDecide mode id keep now rec0 writeErr =
            .ok { readers := [], writer := some id, created := rec0.created,
                  updated := now }) ∧
       (∀ (mode2 : JsonMode) (lockId : String) (rec rec1 : LockRecord),
          RecordInv rec →
          releaseJsonStep mode2 lockId keep now (some rec) = .written rec1 →
          RecordInv rec1)) := by
  intro mode id keep now rec0 writeErr hInv hid
  refine ⟨?_, ?_, ?_, ?_, ?_, ?_⟩
  · intro rec1 h
    cases mode with
    | shared =>
        cases hw : writerTruthy rec0.writer with
        | true => simp [acquireJsonDecide, hw] at h
        | false =>
            have hwn : rec0.writer = none := writer_none_of_not_truthy hInv hw
            cases writeErr with
            | some c => simp [acquireJsonDecide, acquireJsonFinish, hw] at h
            | none =>
                simp only [acquireJsonDecide, hw, Bool.false_eq_true, if_false,
                  acquireJsonFinish, Except.ok.injEq] at h
                intro w hw1
                rw [← h] at hw1
                simp [hwn] at hw1
    | exclusive =>
        cases hc : (writerTruthy rec0.writer || decide (0 < rec0.readers.length)) with
        | true => simp [acquireJsonDecide, hc] at h
        | false =>
            have hrd : rec0.readers = [] := by
              rcases Bool.or_eq_false_iff.mp hc with ⟨_, h2⟩
              have := of_decide_eq_false h2
              cases hr : rec0.readers with
              | nil => rfl
              | cons a l => rw [hr] at this; simp at this
            cases writeErr with
            | some c => simp [acquireJsonDecide, acquireJsonFinish, hc] at h
            | none =>
                simp only [acquireJsonDecide, hc, Bool.false_eq_true, if_false,
                  acquireJsonFinish, Except.ok.injEq] at h
                intro w hw1
                rw [← h] at hw1
                simp at hw1
                refine ⟨by rw [← hw1]; exact hid, ?_⟩
                rw [← h]
                simp [hrd]
  · intro hm hw
    subst hm
    simp [acquireJsonDecide, hw]
  · intro hm hw hwe hk
    subst hm; subst hwe
    have hwn : rec0.writer = none := writer_none_of_not_truthy hInv hw
    refine ⟨{ readers := (if rec0.readers.contains id then rec0.readers
                          else rec0.readers ++ [id]).filter keep,
              writer := rec0.writer, created := rec0.created, updated := now },
            ?_, ?_, ?_⟩
    · simp [acquireJsonDecide, hw, acquireJsonFinish]
    · simpa using hwn
    · simp only [List.mem_filter, hk, and_true]
      by_cases hmem : id ∈ rec0.readers
      · simp [hmem]
      · simp [hmem]
  · intro hm hcond
    subst hm
    have hc : (writerTruthy rec0.writer || decide (0 < rec0.readers.length)) = true := by
      cases hcond with
      | inl h1 => simp [h1]
      | inr h2 =>
          have : 0 < rec0.readers.length := List.length_pos.mpr h2
          simp [this]
    simp [acquireJsonDecide, hc]
  · intro hm hw hrd hwe
    subst hm; subst hwe
    have hc : (writerTruthy rec0.writer || decide (0 < rec0.readers.length)) = false := by
      simp [hw, hrd]
    simp [acquireJsonDecide, hc, acquireJsonFinish, hrd, hw]
  · intro mode2 lockId rec rec1 hInvR h
    cases mode2 with
    | shared =>
        simp only [releaseJsonStep] at h
        split at h
        · exact absurd h (by simp)
        · intro w hw1
          have h2 := h
          injection h2 with h3
          rw [← h3] at hw1
          simp at hw1
          obtain ⟨hne, hrd⟩ := hInvR w hw1
          refine ⟨hne, ?_⟩
          rw [← h3]
          simp [hrd]
    | exclusive =>
        simp only [releaseJsonStep] at h
        by_cases hwl : rec.writer == some lockId
        · rw [if_pos hwl] at h
          split at h
          · exact absurd h (by simp)
          · intro w hw1
            injection h with h3
            rw [← h3] at hw1
            simp at hw1
        · rw [if_neg hwl] at h
          split at h
          · exact absurd h (by simp)
          · intro w hw1
            injection h with h3
            rw [← h3] at hw1
            simp at hw1
            obtain ⟨hne, hrd⟩ := hInvR w hw1
            refine ⟨hne, ?_⟩
            rw [← h3]
            simp [hrd]

theorem json_record_invariant_witness :
    ∃ rec1, acquireJsonDecide .shared "a" (fun _ => true) 1 (emptyRecord 0) none =
      .ok rec1 ∧ rec1.writer = none ∧ "a" ∈ rec1.readers :=
  (json_record_invariant .shared "a" (fun _ => true) 1 (emptyRecord 0) none
    (fun w h => nomatch h) (by decide)).2.2.1 rfl rfl rfl rfl

/-- Claim C4 (counterexample): at second precision the heartbeat writes
the fresh timestamp rounded up to the next whole second, not truncated:
on a tick whose Date.now() is 1001 the code writes mtime 2000 while the
truncation the claim describes would write 1000. -/
theorem heartbeat_truncation_counterexample :
    updateTick { mtime := 500, lastUpdate := 0, released := false, hasCallback := true }
      10000 .s (.stat 500) none 0 1001 0 = .refreshed 2000 ∧
    truncatedToSecond 1001 = 1000 ∧ (2000 : Int) ≠ 1000 := by
  refine ⟨rfl, rfl, by decide⟩

/-- Claim C4 (amended): each heartbeat tick behaves as the claim states
except that at second precision the fresh timestamp is rounded up to the
next whole second (the least multiple of 1000 at least Date.now()), not
truncated: an observed mtime differing from the last one written
compromises the lock; a stat error compromises exactly when the marker is
gone (ENOENT) or the last successful update is older than the stale
threshold, otherwise the retry delay is shortened to 1000 ms; a failed
mtime write is classified the same way; a successful write refreshes the
mtime; and Compromised goes to the onCompromised callback when supplied
and is thrown otherwise. -/
theorem heartbeat_tick_spec :
    ∀ (lock : HeldLock) (stale : Int) (precision : Precision) (statRes : StatRes)
      (utimesErr : Option ErrCode) (n1 n2 n3 : Int),
      ((∀ m, mapStatRes statRes = .stat m → lock.mtime ≠ m →
        updateTick lock stale precision statRes utimesErr n1 n2 n3 =
          compromise lock.hasCallback .ECOMPROMISED) ∧
       (∀ c, mapStatRes statRes = .errCode c →
        updateTick lock stale precision statRes utimesErr n1 n2 n3 =
          (if c = .ENOENT ∨ lock.lastUpdate + stale < n1 then
            compromise lock.hasCallback .ECOMPROMISED
          else .retryShortened 1000)) ∧
       (∀ m, mapStatRes statRes = .stat m → lock.mtime = m → lock.released = false →
        utimesErr = none →
        updateTick lock stale precision statRes utimesErr n1 n2 n3 =
          .refreshed (getMtime precision n2)) ∧
       (∀ m raw, mapStatRes statRes = .stat m → lock.mtime = m →
        lock.released = false → utimesErr = some raw →
        updateTick lock stale precision statRes utimesErr n1 n2 n3 =
          (if mapLockfileError raw = .ENOENT ∨ lock.lastUpdate + stale < n3 then
            compromise lock.hasCallback .ECOMPROMISED
          else .retryShortened 1000)) ∧
       (getMtime .ms n2 = n2 ∧ (getMtime .s n2) % 1000 = 0 ∧ n2 ≤ getMtime .s n2 ∧
        getMtime .s n2 < n2 + 1000) ∧
       (compromise true .ECOMPROMISED = .compromisedCb .ECOMPROMISED ∧
        compromise false .ECOMPROMISED = .compromisedThrown .ECOMPROMISED)) := by
  intro lock stale precision statRes utimesErr n1 n2 n3
  refine ⟨?_, ?_, ?_, ?_, ⟨rfl, ?_, ?_, ?_⟩, ⟨rfl, rfl⟩⟩
  · intro m hs hm
    simp [updateTick, hs, hm]
  · intro c hs
    simp [updateTick, hs]
  · intro m hs hm hr hu
    simp [updateTick, hs, hm, hr, hu]
  · intro m raw hs hm hr hu
    simp [updateTick, hs, hm, hr, hu]
  · show ((n2 + 999) / 1000 * 1000) % 1000 = 0
    omega
  · show n2 ≤ (n2 + 999) / 1000 * 1000
    omega
  · show (n2 + 999) / 1000 * 1000 < n2 + 1000
    omega

theorem heartbeat_tick_spec_witness :
    updateTick { mtime := 500, lastUpdate := 0, released := false, hasCallback := false }
      10000 .ms (.stat 500) none 0 250 0 = .refreshed 250 :=
  (heartbeat_tick_spec ⟨500, 0, false, false⟩ 10000 .ms (.stat 500) none 0 250 0).2.2.1
    500 rfl rfl rfl rfl

/-- Claim C5 (counterexample): the release function returned by the
synchronous lockSync throws the error Lock already released when called a
second time after a successful first release, so release is not idempotent
for the synchronous variant. -/
theorem sync_release_second_call_throws :
    lockSyncReleaseStep false none = (true, .ok) ∧
    (lockSyncReleaseStep (lockSyncReleaseStep false none).1 none).2 =
      .threwAlreadyReleased := ⟨rfl, rfl⟩

/-- Claim C5 (amended): the release handle returned by the asynchronous
acquire is idempotent — on an already-released session a further call
changes nothing, performs no filesystem operation and reports no error,
and releasing an acquired session then calling release again is a no-op —
but the synchronous variant throws on the second call. -/
theorem release_idempotent_async :
    (∀ s : RelState, s.released = true → releaseHandle s = (s, none)) ∧
    (∀ n : Nat,
      (releaseHandle ⟨false, true, true, n⟩).2 = none ∧
      releaseHandle (releaseHandle ⟨false, true, true, n⟩).1 =
        ((releaseHandle ⟨false, true, true, n⟩).1, none)) ∧
    (lockSyncReleaseStep true none).2 = .threwAlreadyReleased := by
  refine ⟨?_, ?_, rfl⟩
  · intro s h
    simp [releaseHandle, h]
  · intro n
    exact ⟨rfl, rfl⟩

theorem release_idempotent_async_witness :
    releaseHandle ⟨true, false, false, 0⟩ = (⟨true, false, false, 0⟩, none) ∧
    releaseHandle (releaseHandle ⟨false, true, true, 0⟩).1 =
      ((releaseHandle ⟨false, true, true, 0⟩).1, none) :=
  ⟨release_idempotent_async.1 _ rfl, (release_idempotent_async.2.1 0).2⟩

/-- Claim C8 (counterexample): a record whose only holder is a dead
same-host reader (the liveness probe reports every entry dead) still makes
an exclusive acquire fail with ELOCKED, because the conflict decision runs
before any pruning. -/
theorem prune_counterexample :
    acquireJsonDecide .exclusive "pid:1@h:bb" (fun _ => false) 5
      { readers := ["pid:999@h:aa"], writer := none, created := 0, updated := 0 }
      none = .error { code := .ELOCKED, fromStalenessRetry := false } := rfl

/-- Claim C8 (amended): dead same-host readers are pruned only after the
shared/exclusive conflict decision, when the updated record is written,
and a dead writer is never pruned — so the conflict decision sees the
unpruned record and an acquire can fail with ELOCKED solely because of a
crashed same-host holder. -/
theorem prune_after_decision :
    ∀ (id : String) (keep : String → Bool) (now : Int) (rec0 : LockRecord)
      (writeErr : Option ErrCode),
      ((writerTruthy rec0.writer = true ∨ rec0.readers ≠ []) →
        acquireJsonDecide .exclusive id keep now rec0 writeErr =
          .error { code := .ELOCKED, fromStalenessRetry := false }) ∧
      (writerTruthy rec0.writer = true →
        acquireJsonDecide .shared id keep now rec0 writeErr =
          .error { code := .ELOCKED, fromStalenessRetry := false }) ∧
      (writerTruthy rec0.writer = false → writeErr = none →
        acquireJsonDecide .shared id keep now rec0 writeErr =
          .ok { readers := (if rec0.readers.contains id then rec0.readers
                            else rec0.readers ++ [id]).filter keep,
                writer := rec0.writer, created := rec0.created, updated := now }) := by
  intro id keep now rec0 writeErr
  refine ⟨?_, ?_, ?_⟩
  · intro hcond
    have hc : (writerTruthy rec0.writer || decide (0 < rec0.readers.length)) = true := by
      cases hcond with
      | inl h1 => simp [h1]
      | inr h2 =>
          have : 0 < rec0.readers.length := List.length_pos.mpr h2
          simp [this]
    simp [acquireJsonDecide, hc]
  · intro hw
    simp [acquireJsonDecide, hw]
  · intro hw hwe
    subst hwe
    simp [acquireJsonDecide, hw, acquireJsonFinish]

theorem prune_after_decision_witness :
    acquireJsonDecide .shared "x" (fun _ => true) 7
      { readers := [], writer := some "w", created := 0, updated := 0 } none =
      .error { code := .ELOCKED, fromStalenessRetry := false } :=
  (prune_after_decision "x" (fun _ => true) 7
    { readers := [], writer := some "w", created := 0, updated := 0 } none).2.1 rfl

theorem record_mode_frame_witness :
    lockCoreDispatch (some .shared) [] "f" [] 0 =
      { locksAfter := [], heartbeatStarted := false, retryPolicyUsed := false } ∧
    "f" ∉ (lockCoreDispatch (some .shared) [] "f" [] 0).locksAfter :=
  ⟨(record_mode_frame .shared [] "f" [] 0).1,
   (record_mode_frame .shared [] "f" [] 0).2 (by simp)⟩

end Locksmith
